import Mathlib

/-!
Verification of the `ts-spatial-navigation` engine.

This file gives a shallow embedding, in Lean 4, of the directional election
algorithm and the focus state machine of the repository:

* `ElementRect`, the geometry snapshot built by `element-rect.ts`
  (`new ElementRect(element)`), with its eight distance functions;
* `partition`, `definePriorities`, `prioritize` and `navigate` from the
  `Navigator` class (`lib/index.ts`);
* `exclude` from `lib/utils.ts`;
* the `NavSection` entity (`nav-section.ts`): `isNavigable`, `getLeaveForAt`,
  `gotoLeaveFor`;
* the focus protocol of `Navigator`: `focusElement`, `beforeFocusChanged`,
  `focusChanged`, and the election/override phases of `focusNext`.

Numbers are modelled by `ℚ` (the source computes with IEEE doubles; every
quantity appearing in the claims is exact dyadic arithmetic, which `ℚ`
represents exactly).  DOM-dependent primitives (CSS selector matching,
`querySelectorAll`, `getBoundingClientRect`, `getAttribute` and the
`focusExtendedSelector` routine, which is a DOM query followed by a focus
call) are the specified external boundary of the engine; they enter the
model as explicit data: an element's measured box, a section's
`matchElem` / `navigables` functions, an `attr` map, and an `extFocus`
routine carried by `World`.

Event dispatch is modelled by a trace: `fireEvent` appends the event and a
cancellation oracle (`cancelled`) answers whether a handler called
`preventDefault` on a cancellable dispatch.
-/

namespace SpatialNav

/-- Element handles (`HTMLElement` identity); `===` becomes equality on `ℕ`. -/
abbrev Elem := Nat

/-- The four `Direction` values of `types.ts`. -/
inductive Direction where
  | up
  | down
  | left
  | right
deriving DecidableEq, Repr

/-- The `REVERSE` mapping of `lib/index.ts` (`up↔down`, `left↔right`). -/
def REVERSE : Direction → Direction
  | .up => .down
  | .down => .up
  | .left => .right
  | .right => .left

/-- The fields of `element.getBoundingClientRect()` used by `ElementRect`. -/
structure BoundingRect where
  x : ℚ
  y : ℚ
  width : ℚ
  height : ℚ
  top : ℚ
  bottom : ℚ
  left : ℚ
  right : ℚ
deriving DecidableEq, Repr

/-- The `ElementRect` snapshot (`element-rect.ts`): the bounding box of an
element plus its center, `(left + ⌊width / 2⌋, top + ⌊height / 2⌋)`.  The
`center` object of the source carries `x`/`y`; we store them as
`centerX`/`centerY`. -/
structure ElementRect where
  element : Elem
  x : ℚ
  y : ℚ
  width : ℚ
  height : ℚ
  top : ℚ
  bottom : ℚ
  left : ℚ
  right : ℚ
  centerX : ℚ
  centerY : ℚ
deriving DecidableEq, Repr

/-- `new ElementRect(element)`: read the bounding rect of `element` (the
`measure` map is the DOM boundary) and compute the center via
`Math.floor(width / 2)` / `Math.floor(height / 2)`. -/
def mkElementRect (measure : Elem → BoundingRect) (element : Elem) : ElementRect :=
  let r := measure element
  { element := element
    x := r.x, y := r.y, width := r.width, height := r.height
    top := r.top, bottom := r.bottom, left := r.left, right := r.right
    centerX := r.left + (⌊r.width / 2⌋ : ℤ)
    centerY := r.top + (⌊r.height / 2⌋ : ℤ) }

/-- The destructured `{width, height, top, bottom, left, right}` reference
argument of `Navigator.partition` (a `DOMRectReadOnly`). -/
structure RefRect where
  width : ℚ
  height : ℚ
  top : ℚ
  bottom : ℚ
  left : ℚ
  right : ℚ
deriving DecidableEq, Repr

/-- View an `ElementRect` as the reference-rect argument of `partition`. -/
def toRefRect (r : ElementRect) : RefRect :=
  { width := r.width, height := r.height, top := r.top, bottom := r.bottom
    left := r.left, right := r.right }

/-- The `center` of an `ElementRect` viewed as the reference-rect argument of
`partition` (the source's center object has `left = right = x`,
`top = bottom = y` and zero width and height). -/
def centerRef (r : ElementRect) : RefRect :=
  { width := 0, height := 0, top := r.centerY, bottom := r.centerY
    left := r.centerX, right := r.centerX }

/-- Column index of a rect's center relative to the reference
(`rect.center.x < left ? 0 : rect.center.x <= right ? 1 : 2`). -/
def colIndex (ref : RefRect) (r : ElementRect) : Nat :=
  if r.centerX < ref.left then 0 else if r.centerX ≤ ref.right then 1 else 2

/-- Row index of a rect's center relative to the reference
(`rect.center.y < top ? 0 : rect.center.y <= bottom ? 1 : 2`). -/
def rowIndex (ref : RefRect) (r : ElementRect) : Nat :=
  if r.centerY < ref.top then 0 else if r.centerY ≤ ref.bottom then 1 else 2

/-- The primary group of a rect, `groupId = y * 3 + x` in `Navigator.partition`. -/
def primaryGroup (ref : RefRect) (r : ElementRect) : Nat :=
  rowIndex ref r * 3 + colIndex ref r

/-- The spill pushes of `Navigator.partition`: for a rect whose primary group
is a corner (`[0, 2, 6, 8].indexOf(groupId) !== -1`), the list of additional
groups it is pushed into, in the push order of the source
(`left ≤ rightEdge`, `right ≥ leftEdge`, `top ≤ bottomEdge`,
`bottom ≥ topEdge`). -/
def spillGroups (ref : RefRect) (threshold : ℚ) (r : ElementRect) : List Nat :=
  let rightEdge := ref.right - ref.width * threshold
  let leftEdge := ref.left + ref.width * threshold
  let bottomEdge := ref.bottom - ref.height * threshold
  let topEdge := ref.top + ref.height * threshold
  let g := primaryGroup ref r
  if g = 0 ∨ g = 2 ∨ g = 6 ∨ g = 8 then
    (if r.left ≤ rightEdge then (if g = 2 then [1] else if g = 8 then [7] else []) else []) ++
    (if r.right ≥ leftEdge then (if g = 0 then [1] else if g = 6 then [7] else []) else []) ++
    (if r.top ≤ bottomEdge then (if g = 6 then [3] else if g = 8 then [5] else []) else []) ++
    (if r.bottom ≥ topEdge then (if g = 0 then [3] else if g = 2 then [5] else []) else [])
  else []

/-- All groups a rect is pushed into by one iteration of the `forEach` body of
`Navigator.partition`: its primary group followed by its spill groups. -/
def memberships (ref : RefRect) (threshold : ℚ) (r : ElementRect) : List Nat :=
  primaryGroup ref r :: spillGroups ref threshold r

/-- `Navigator.partition(rects, refRect, threshold = 0.5)`.  The source pushes
each rect, in input order, into its membership groups of a 9-cell array;
group `i` of the result therefore holds exactly the input rects (in input
order) whose membership list contains `i`, which is how we phrase it here.
`threshold?` is `none` when the caller passes `undefined`
(`config.straightOverlapThreshold` unset), making the default parameter
`0.5` apply. -/
def partition (rects : List ElementRect) (ref : RefRect) (threshold? : Option ℚ) :
    Nat → List ElementRect :=
  fun i => rects.filter (fun r => (memberships ref (threshold?.getD (1/2)) r).contains i)

/-- `ElementRect.nearPlumbLineIsBetter` bound to target `t`, applied to a
candidate rect. -/
def nearPlumbLineIsBetter (t r : ElementRect) : ℚ :=
  let d := if r.centerX < t.centerX then t.centerX - r.right else r.left - t.centerX
  if d < 0 then 0 else d

/-- `ElementRect.nearHorizonIsBetter` bound to target `t`. -/
def nearHorizonIsBetter (t r : ElementRect) : ℚ :=
  let d := if r.centerY < t.centerY then t.centerY - r.bottom else r.top - t.centerY
  if d < 0 then 0 else d

/-- `ElementRect.nearTargetLeftIsBetter` bound to target `t`. -/
def nearTargetLeftIsBetter (t r : ElementRect) : ℚ :=
  let d := if r.centerX < t.centerX then t.left - r.right else r.left - t.left
  if d < 0 then 0 else d

/-- `ElementRect.nearTargetTopIsBetter` bound to target `t`. -/
def nearTargetTopIsBetter (t r : ElementRect) : ℚ :=
  let d := if r.centerY < t.centerY then t.top - r.bottom else r.top - t.top
  if d < 0 then 0 else d

/-- `ElementRect.topIsBetter`. -/
def topIsBetter (r : ElementRect) : ℚ := r.top

/-- `ElementRect.bottomIsBetter`. -/
def bottomIsBetter (r : ElementRect) : ℚ := -1 * r.bottom

/-- `ElementRect.leftIsBetter`. -/
def leftIsBetter (r : ElementRect) : ℚ := r.left

/-- `ElementRect.rightIsBetter`. -/
def rightIsBetter (r : ElementRect) : ℚ := -1 * r.right

/-- `GroupPriorityType` of `types.ts`: a candidate group plus the chained
distance comparators. -/
structure GroupPriority where
  group : List ElementRect
  distanceMeters : List (ElementRect → ℚ)

/-- `Navigator.definePriorities(targetRect, direction, groups, internalGroups,
straightOnly)`: the ordered priority classes per direction; the third class is
`undefined` (`none`) when `straightOnly` is set. -/
def definePriorities (targetRect : ElementRect) (direction : Direction)
    (groups internalGroups : Nat → List ElementRect) (straightOnly : Bool) :
    List (Option GroupPriority) :=
  match direction with
  | .left =>
    [ some { group := ((internalGroups 0).append (internalGroups 3)).append (internalGroups 6)
             distanceMeters := [nearPlumbLineIsBetter targetRect, topIsBetter] }
    , some { group := groups 3
             distanceMeters := [nearPlumbLineIsBetter targetRect, topIsBetter] }
    , if straightOnly then none else
        some { group := (groups 0).append (groups 6)
               distanceMeters := [nearHorizonIsBetter targetRect, rightIsBetter,
                 nearTargetTopIsBetter targetRect] } ]
  | .right =>
    [ some { group := ((internalGroups 2).append (internalGroups 5)).append (internalGroups 8)
             distanceMeters := [nearPlumbLineIsBetter targetRect, topIsBetter] }
    , some { group := groups 5
             distanceMeters := [nearPlumbLineIsBetter targetRect, topIsBetter] }
    , if straightOnly then none else
        some { group := (groups 2).append (groups 8)
               distanceMeters := [nearHorizonIsBetter targetRect, leftIsBetter,
                 nearTargetTopIsBetter targetRect] } ]
  | .up =>
    [ some { group := ((internalGroups 0).append (internalGroups 1)).append (internalGroups 2)
             distanceMeters := [nearHorizonIsBetter targetRect, leftIsBetter] }
    , some { group := groups 1
             distanceMeters := [nearHorizonIsBetter targetRect, leftIsBetter] }
    , if straightOnly then none else
        some { group := (groups 0).append (groups 2)
               distanceMeters := [nearPlumbLineIsBetter targetRect, bottomIsBetter,
                 nearTargetLeftIsBetter targetRect] } ]
  | .down =>
    [ some { group := ((internalGroups 6).append (internalGroups 7)).append (internalGroups 8)
             distanceMeters := [nearHorizonIsBetter targetRect, leftIsBetter] }
    , some { group := groups 7
             distanceMeters := [nearHorizonIsBetter targetRect, leftIsBetter] }
    , if straightOnly then none else
        some { group := (groups 6).append (groups 8)
               distanceMeters := [nearPlumbLineIsBetter targetRect, topIsBetter,
                 nearTargetLeftIsBetter targetRect] } ]

/-- The sort comparator of `Navigator.prioritize`: the first nonzero delta
`distanceTo(a) - distanceTo(b)` along the meter chain, else `0`. -/
def compareRects (meters : List (ElementRect → ℚ)) (a b : ElementRect) : ℚ :=
  match meters with
  | [] => 0
  | distanceTo :: rest =>
    let delta := distanceTo a - distanceTo b
    if delta ≠ 0 then delta else compareRects rest a b

/-- `Navigator.prioritize(priorities)`: the first priority class with a
non-empty group, its group sorted by the comparator.  The source sorts with
`Array.prototype.sort`, which is a stable sort; a stable sort for a total
preorder has a unique result, which `List.insertionSort` (stable for this
insertion scheme) computes. -/
def prioritize (priorities : List (Option GroupPriority)) : Option (List ElementRect) :=
  match priorities.findSome? (fun p? =>
      match p? with
      | some p => if p.group.length ≠ 0 then some p else none
      | none => none) with
  | none => none
  | some destinationPriority =>
    some (destinationPriority.group.insertionSort
      (fun a b => compareRects destinationPriority.distanceMeters a b ≤ 0))

/-- `PreviousFocus` of `types.ts`. -/
structure PreviousFocus where
  target : Elem
  destination : Elem
  reverse : Direction
deriving DecidableEq, Repr

/-- The `Restrict` values; `unrestricted` stands for any value other than the
two members of the `RESTRICT` enum (the spec's `none` policy). -/
inductive Restriction where
  | selfOnly
  | selfFirst
  | unrestricted
deriving DecidableEq, Repr

/-- The configuration keys consulted by `navigate`/`focusNext`.
`straightOverlapThreshold` is `none` when the key is `undefined` (the
source's section instances initialise it to `undefined`). -/
structure NavConfig where
  straightOnly : Bool
  straightOverlapThreshold : Option ℚ
  rememberSource : Bool
  restrict : Restriction
  previousFocus : Option PreviousFocus

/-- The defaults of `Navigator.config` (`lib/index.ts`, lines 39-51). -/
def navigatorDefaultConfig : NavConfig :=
  { straightOnly := false
    straightOverlapThreshold := some (1/2)
    rememberSource := true
    restrict := .selfFirst
    previousFocus := none }

/-- The `destinationGroup` computed by `Navigator.navigate` (lines 495-517):
build rects, partition the candidates against the target (and the inside
bucket against the target's center), and prioritize per direction.  `none`
when the candidate list is empty (the early return) or every priority class
is empty. -/
def destinationGroupFor (measure : Elem → BoundingRect) (target : Elem)
    (direction : Direction) (candidates : List Elem) (config : NavConfig) :
    Option (List ElementRect) :=
  if candidates.isEmpty then none
  else
    let targetRect := mkElementRect measure target
    let candidatesRects := candidates.map (mkElementRect measure)
    let groups := partition candidatesRects (toRefRect targetRect) config.straightOverlapThreshold
    let internalGroups := partition (groups 4) (centerRef targetRect) config.straightOverlapThreshold
    prioritize (definePriorities targetRect direction groups internalGroups config.straightOnly)

/-- `Navigator.navigate(target, direction, candidates, config)` (lines
495-536): elect from the destination group, preferring
`config.previousFocus.target` when `rememberSource` holds and the previous
move recorded this target/direction pair; otherwise the group's first
element.  (`prioritize` never returns an empty group, so the `some []` arm is
dead code.) -/
def navigate (measure : Elem → BoundingRect) (target : Elem) (direction : Direction)
    (candidates : List Elem) (config : NavConfig) : Option Elem :=
  match destinationGroupFor measure target direction candidates config with
  | none => none
  | some destinationGroup =>
    let destination : Option Elem :=
      if config.rememberSource then
        match config.previousFocus with
        | some previousFocus =>
          if previousFocus.destination = target ∧ previousFocus.reverse = direction then
            (destinationGroup.find? (fun rect => rect.element = previousFocus.target)).map
              (fun rect => rect.element)
          else none
        | none => none
      else none
    match destination with
    | some d => some d
    | none => (destinationGroup.head?).map (fun rect => rect.element)

/-- `exclude(items, excluded)` from `lib/utils.ts`: for each excluded element
remove its first occurrence (`indexOf`/`splice`) from `items`. -/
def exclude (items : List Elem) (excluded : List Elem) : List Elem :=
  excluded.foldl (fun acc e => acc.erase e) items

/-- Observable occurrences during a focus move: the custom `sn:` DOM events
dispatched by `fireEvent`, plus invocations of the per-section `onBlur` /
`onFocus` configuration hooks. -/
inductive Ev where
  | willUnfocus (el : Elem)
  | unfocused (el : Elem)
  | willFocus (el : Elem)
  | focused (el : Elem)
  | navigateFailed (el : Elem)
  | onBlurHook (sectionId : Nat)
  | onFocusHook (sectionId : Nat)
deriving DecidableEq, Repr

/-- Whether an occurrence is a DOM event (dispatched on an element), as
opposed to a configuration-hook invocation. -/
def isDomEvent : Ev → Bool
  | .onBlurHook _ => false
  | .onFocusHook _ => false
  | _ => true

/-- An extended selector (`ExtendedSelector` of `types.ts`): a selector
string, a direct element handle, or an element collection. -/
inductive ExtSel where
  | str (s : String)
  | element (e : Elem)
  | collection (es : List Elem)

/-- One entry of a `leaveFor` map: an extended selector or a callable
returning one. -/
inductive LeaveEntry where
  | sel (s : ExtSel)
  | callback (f : Unit → ExtSel)

/-- The measured layout properties of an element consulted by
`NavSection.isNavigable` (the DOM boundary): `offsetWidth`, `offsetHeight`
and the presence of a `disabled` attribute. -/
structure ElemProps where
  offsetWidth : ℚ
  offsetHeight : ℚ
  hasDisabledAttr : Bool

/-- A `NavSection` (`nav-section.ts`), restricted to the state and
configuration the claims exercise.  `matchElem` models `match(element)`
(CSS selector matching), `navigables` models the result of
`getNavigableElements()`, and `primaryElement` the result of
`getPrimaryElement()` — all three depend on live DOM queries and are the
engine's specified boundary.  `hasOnBlur`/`hasOnFocus` record whether the
optional hooks are configured (the source calls them through `?.()`). -/
structure Section where
  disabled : Bool
  matchElem : Elem → Bool
  navigables : List Elem
  config : NavConfig
  leaveFor : Direction → Option LeaveEntry
  primaryElement : Option Elem
  navigableFilter : Option (Elem → Bool)
  hasOnBlur : Bool
  hasOnFocus : Bool
  lastFocusedElement : Option Elem

/-- The `Navigator` state touched by the focus protocol: the
insertion-ordered section registry, `lastSectionId` (`''` becomes `none`),
the `paused` and `duringFocusChange` flags, and the currently focused
element (`document.activeElement`, `none` when focus is on the body). -/
structure NavState where
  sections : List (Nat × Section)
  lastSectionId : Option Nat
  paused : Bool
  duringFocusChange : Bool
  focused : Option Elem

/-- `Navigator.getSectionId(element)`: the first non-disabled section
matching the element, in registry order. -/
def getSectionId (st : NavState) (element : Elem) : Option Nat :=
  (st.sections.find? (fun p => !p.2.disabled && p.2.matchElem element)).map (fun p => p.1)

/-- `this.sections[id]` lookup. -/
def getSection (st : NavState) (id : Nat) : Option Section :=
  (st.sections.find? (fun p => p.1 = id)).map (fun p => p.2)

/-- In-place mutation of one section (`this.sections[id].field = v`).  When
`id` is not registered the source would throw; the claims only exercise
registered ids, and the model leaves the state unchanged. -/
def updateSection (st : NavState) (id : Nat) (f : Section → Section) : NavState :=
  { st with sections := st.sections.map (fun p => if p.1 = id then (p.1, f p.2) else p) }

/-- The DOM boundary of the engine, as explicit data: `attr` models
`element.getAttribute('data-sn-' + direction)`; `measure` models
`getBoundingClientRect`; `extFocus` models
`Navigator.focusExtendedSelector(selector, direction)`, a DOM query followed
by a focus call, returning its success flag together with the state and
events it produces. -/
structure World where
  attr : Elem → Direction → Option String
  measure : Elem → BoundingRect
  extFocus : String → Direction → NavState → Bool × NavState × List Ev

/-- `NavSection.isNavigable(element, verifySectionSelector)`
(`nav-section.ts`): refuse null elements, disabled sections, elements that
are zero-sized in both dimensions or carry a `disabled` attribute, selector
mismatches (when verifying), and elements rejected by the section-level
`navigableFilter` (or, only when no section filter is configured, the
global one, here `globalFilter`). -/
def isNavigable (s : Section) (globalFilter : Option (Elem → Bool))
    (props : Elem → ElemProps) (element : Option Elem)
    (verifySectionSelector : Bool) : Bool :=
  match element with
  | none => false
  | some el =>
    if s.disabled then false
    else if ((props el).offsetWidth ≤ 0 ∧ (props el).offsetHeight ≤ 0) ∨
        (props el).hasDisabledAttr then false
    else if verifySectionSelector ∧ ¬ s.matchElem el then false
    else
      match s.navigableFilter with
      | some filter => if filter el = false then false else true
      | none =>
        match globalFilter with
        | some filter => if filter el = false then false else true
        | none => true

/-- `NavSection.getLeaveForAt(direction)`: the configured `leaveFor` entry,
invoked first when it is callable. -/
def getLeaveForAt (s : Section) (direction : Direction) : Option ExtSel :=
  match s.leaveFor direction with
  | none => none
  | some (.callback f) => some (f ())
  | some (.sel x) => some x

/-- `NavSection.gotoLeaveFor(direction)` (`nav-section.ts`): resolve the
entry; an empty selector string returns the `undefined` sentinel (`none`); a
non-empty string attempts the extended-selector focus, returning `true`
(after invoking the section's `onBlur` hook) when it succeeded; everything
else — focus failure, element/collection entries, no entry — returns
`false`.  `sectionId` names the section for the hook trace entry. -/
def gotoLeaveFor (w : World) (st : NavState) (sectionId : Nat) (s : Section)
    (direction : Direction) : Option Bool × NavState × List Ev :=
  match getLeaveForAt s direction with
  | some (.str selector) =>
    if selector = "" then (none, st, [])
    else
      let ef := w.extFocus selector direction st
      if ef.1 then
        (some true, ef.2.1, ef.2.2 ++ (if s.hasOnBlur then [Ev.onBlurHook sectionId] else []))
      else (some false, ef.2.1, ef.2.2)
  | _ => (some false, st, [])

/-- `Navigator.beforeFocusChanged(focusedElement, nextSectionId)`: when the
blurred element belongs to a (non-disabled) section different from the
destination section, invoke that section's `onBlur` hook. -/
def beforeFocusChanged (st : NavState) (focusedElement : Elem)
    (nextSectionId : Option Nat) : List Ev :=
  match st.sections.find? (fun p => !p.2.disabled && p.2.matchElem focusedElement) with
  | none => []
  | some (sid, s) =>
    if some sid ≠ nextSectionId then
      if s.hasOnBlur then [Ev.onBlurHook sid] else []
    else []

/-- The `if (!sectionId) sectionId = this.getSectionId(element)` preamble of
`Navigator.focusChanged`. -/
def resolveSectionId (st : NavState) (element : Elem) (sectionId? : Option Nat) :
    Option Nat :=
  match sectionId? with
  | none => getSectionId st element
  | some sid => some sid

/-- `this.sections[this.lastSectionId]?.onBlur?.()`: the hook trace entry of
the previous section, skipped when the id is empty, unregistered, or the
hook unconfigured. -/
def onBlurEvFor (st : NavState) (sid? : Option Nat) : List Ev :=
  match sid? with
  | none => []
  | some lastSid =>
    match getSection st lastSid with
    | none => []
    | some ls => if ls.hasOnBlur then [Ev.onBlurHook lastSid] else []

/-- `this.sections[sectionId].onFocus?.()`: the hook trace entry of the new
section.  (An unregistered id would throw in the source; the claims only
exercise registered ids, and the model skips it.) -/
def onFocusEvFor (st : NavState) (sid : Nat) : List Ev :=
  match getSection st sid with
  | none => []
  | some s => if s.hasOnFocus then [Ev.onFocusHook sid] else []

/-- `Navigator.focusChanged(element, sectionId)`: record the element as the
section's last focused element; on a section change invoke the previous
section's `onBlur` hook (through `?.`) and the new section's `onFocus` hook,
then update `lastSectionId`. -/
def focusChanged (st : NavState) (element : Elem) (sectionId? : Option Nat) :
    NavState × List Ev :=
  match resolveSectionId st element sectionId? with
  | none => (st, [])
  | some sid =>
    let st1 := updateSection st sid (fun s => { s with lastFocusedElement := some element })
    let evs :=
      if st1.lastSectionId ≠ some sid then
        onBlurEvFor st1 st1.lastSectionId ++ onFocusEvFor st1 sid
      else []
    ({ st1 with lastSectionId := some sid }, evs)

/-- The `silentFocus` closure of `Navigator.focusElement`: blur the focused
element (if any), run `beforeFocusChanged`, focus the target and run
`focusChanged` — dispatching no DOM events.  Both callers hold
`duringFocusChange`, so the native focus/blur listeners (which check the
guard) are no-ops; the model therefore omits them.  `smartFocus` only
alters the timing of the native focus call for `non-scrollable` elements,
not its effect, and is modelled as an immediate focus. -/
def silentFocus (st : NavState) (focusedElement : Option Elem) (element : Elem)
    (sectionId : Option Nat) : NavState × List Ev :=
  match focusedElement with
  | some fe =>
    let st1 := { st with focused := none }
    let evs1 := beforeFocusChanged st1 fe sectionId
    let st2 := { st1 with focused := some element }
    let fc := focusChanged st2 element sectionId
    (fc.1, evs1 ++ fc.2)
  | none =>
    let st2 := { st with focused := some element }
    focusChanged st2 element sectionId

/-- The second half of `Navigator.focusElement` (lines 592-609): dispatch the
cancellable `will-focus`; on cancellation clear the guard and fail; else
focus the element, dispatch `focused`, clear the guard and run
`focusChanged`.  `acc` carries the events of the unfocus phase. -/
def focusPhase (st : NavState) (cancelled : Ev → Bool) (element : Elem)
    (sectionId : Option Nat) (acc : List Ev) : Bool × NavState × List Ev :=
  if cancelled (.willFocus element) then
    (false, { st with duringFocusChange := false }, acc ++ [Ev.willFocus element])
  else
    let st1 := { st with focused := some element }
    let st2 := { st1 with duringFocusChange := false }
    let fc := focusChanged st2 element sectionId
    (true, fc.1, acc ++ [Ev.willFocus element, Ev.focused element] ++ fc.2)

/-- `Navigator.focusElement(element, sectionId, direction)` (lines 544-610).
Re-entrant calls (guard already set) take the silent path and return `true`;
paused calls take the silent path under the guard and reset it; otherwise
the full protocol runs: cancellable `will-unfocus` (abort resets the guard),
blur + `beforeFocusChanged` + `unfocused`, then the focus phase.  The
`direction` argument only feeds event payloads, which the trace does not
record. -/
def focusElement (st : NavState) (cancelled : Ev → Bool) (element? : Option Elem)
    (sectionId : Option Nat) : Bool × NavState × List Ev :=
  match element? with
  | none => (false, st, [])
  | some element =>
    let focusedElement := st.focused
    if st.duringFocusChange then
      let sf := silentFocus st focusedElement element sectionId
      (true, sf.1, sf.2)
    else
      let st0 := { st with duringFocusChange := true }
      if st0.paused then
        let sf := silentFocus st0 focusedElement element sectionId
        (true, { sf.1 with duringFocusChange := false }, sf.2)
      else
        match focusedElement with
        | some fe =>
          if cancelled (.willUnfocus fe) then
            (false, { st0 with duringFocusChange := false }, [Ev.willUnfocus fe])
          else
            let st1 := { st0 with focused := none }
            let evs1 := beforeFocusChanged st1 fe sectionId
            focusPhase st1 cancelled element sectionId
              ([Ev.willUnfocus fe] ++ evs1 ++ [Ev.unfocused fe])
        | none => focusPhase st0 cancelled element sectionId []

/-- The election phase of `Navigator.focusNext` (lines 706-740): gather every
section's navigable elements, overlay the source section's configuration on
the defaults (`Object.assign` — the section owns every key, so the overlay
is the section's own configuration), and elect by the restrict policy.
Under `self-first`, the fallback candidate list is built from
`allNavigableElements` minus the already-excluded current-section list
(`exclude` mutates the per-section array in place, so the source element
itself is not removed from the fallback pool). -/
def electNext (measure : Elem → BoundingRect) (sections : List (Nat × Section))
    (direction : Direction) (focusedElement : Elem) (currentSectionId : Nat) :
    Option Elem :=
  let allNavigableElements :=
    sections.foldl (fun acc p => if p.2.navigables.isEmpty then acc else acc ++ p.2.navigables) []
  match (sections.find? (fun p => p.1 = currentSectionId)).map (fun p => p.2) with
  | none => none
  | some currentSection =>
    let config := currentSection.config
    if config.restrict = .selfOnly ∨ config.restrict = .selfFirst then
      let currentSectionNavigableElements := exclude currentSection.navigables [focusedElement]
      match navigate measure focusedElement direction currentSectionNavigableElements config with
      | some nextElement => some nextElement
      | none =>
        if config.restrict = .selfFirst then
          navigate measure focusedElement direction
            (exclude allNavigableElements currentSectionNavigableElements) config
        else none
    else
      navigate measure focusedElement direction
        (exclude allNavigableElements [focusedElement]) config

/-- `Navigator.fireNavigateFailed(element, direction)`: dispatch the
non-cancellable `navigate-failed` event (the `false` result is produced at
the call sites below). -/
def fireNavigateFailed (element : Elem) : List Ev :=
  [Ev.navigateFailed element]

/-- `Navigator.focusNext(direction, focusedElement, currentSectionId)` (lines
695-769).  A `data-sn-<direction>` attribute overrides the election: the
empty string reports `navigate-failed` immediately, a non-empty value routes
through `focusExtendedSelector`, reporting `navigate-failed` on failure.
Otherwise elect; on success record `previousFocus` (reverse direction) on
the source section and, for a cross-section destination, consult
`gotoLeaveFor` (`true` ⇒ done, `none` sentinel ⇒ `navigate-failed`,
`false` ⇒ continue after swapping in the destination section's primary
element when it has one), then focus.  With no electee, `gotoLeaveFor`
decides between done and `navigate-failed`. -/
def focusNext (w : World) (st : NavState) (cancelled : Ev → Bool)
    (direction : Direction) (focusedElement : Elem) (currentSectionId : Nat) :
    Bool × NavState × List Ev :=
  match w.attr focusedElement direction with
  | some extSelector =>
    if extSelector = "" then (false, st, fireNavigateFailed focusedElement)
    else
      let ef := w.extFocus extSelector direction st
      if ef.1 then (true, ef.2.1, ef.2.2)
      else (false, ef.2.1, ef.2.2 ++ fireNavigateFailed focusedElement)
  | none =>
    match electNext w.measure st.sections direction focusedElement currentSectionId with
    | some nextElement =>
      let st1 := updateSection st currentSectionId (fun s =>
        { s with config := { s.config with
            previousFocus := some ⟨focusedElement, nextElement, REVERSE direction⟩ } })
      let nextSectionId := getSectionId st1 nextElement
      if some currentSectionId = nextSectionId then
        focusElement st1 cancelled (some nextElement) nextSectionId
      else
        match getSection st1 currentSectionId with
        | none => (false, st1, [])
        | some currentSection =>
          let gl := gotoLeaveFor w st1 currentSectionId currentSection direction
          match gl.1 with
          | some true => (true, gl.2.1, gl.2.2)
          | none => (false, gl.2.1, gl.2.2 ++ fireNavigateFailed focusedElement)
          | some false =>
            let enterToElement := nextSectionId.bind (fun nsid =>
              (getSection gl.2.1 nsid).bind (fun s => s.primaryElement))
            let nextElement' := enterToElement.getD nextElement
            let fe := focusElement gl.2.1 cancelled (some nextElement') nextSectionId
            (fe.1, fe.2.1, gl.2.2 ++ fe.2.2)
    | none =>
      match getSection st currentSectionId with
      | none => (false, st, fireNavigateFailed focusedElement)
      | some currentSection =>
        let gl := gotoLeaveFor w st currentSectionId currentSection direction
        if gl.1 = some true then (true, gl.2.1, gl.2.2)
        else (false, gl.2.1, gl.2.2 ++ fireNavigateFailed focusedElement)

theorem colIndex_le (ref : RefRect) (r : ElementRect) : colIndex ref r ≤ 2 := by
  unfold colIndex
  split_ifs <;> omega

theorem rowIndex_le (ref : RefRect) (r : ElementRect) : rowIndex ref r ≤ 2 := by
  unfold rowIndex
  split_ifs <;> omega

theorem primaryGroup_lt (ref : RefRect) (r : ElementRect) : primaryGroup ref r < 9 := by
  have h1 := colIndex_le ref r
  have h2 := rowIndex_le ref r
  unfold primaryGroup
  omega

theorem mem_spillGroups_iff (ref : RefRect) (t : ℚ) (r : ElementRect) (i : Nat) :
    i ∈ spillGroups ref t r ↔
      ((primaryGroup ref r = 2 ∧ i = 1 ∧ r.left ≤ ref.right - ref.width * t) ∨
       (primaryGroup ref r = 8 ∧ i = 7 ∧ r.left ≤ ref.right - ref.width * t) ∨
       (primaryGroup ref r = 0 ∧ i = 1 ∧ r.right ≥ ref.left + ref.width * t) ∨
       (primaryGroup ref r = 6 ∧ i = 7 ∧ r.right ≥ ref.left + ref.width * t) ∨
       (primaryGroup ref r = 6 ∧ i = 3 ∧ r.top ≤ ref.bottom - ref.height * t) ∨
       (primaryGroup ref r = 8 ∧ i = 5 ∧ r.top ≤ ref.bottom - ref.height * t) ∨
       (primaryGroup ref r = 0 ∧ i = 3 ∧ r.bottom ≥ ref.top + ref.height * t) ∨
       (primaryGroup ref r = 2 ∧ i = 5 ∧ r.bottom ≥ ref.top + ref.height * t)) := by
  simp only [spillGroups]
  split_ifs <;> simp_all [List.mem_append]

theorem spillGroups_length_le (ref : RefRect) (t : ℚ) (r : ElementRect) :
    (spillGroups ref t r).length ≤ 2 := by
  simp only [spillGroups]
  split_ifs <;> simp_all

theorem memberships_length_le (ref : RefRect) (t : ℚ) (r : ElementRect) :
    (memberships ref t r).length ≤ 3 := by
  have h := spillGroups_length_le ref t r
  simp [memberships]
  omega

theorem countP_contains_le_length (n : Nat) (l : List Nat) :
    (List.range n).countP (fun i => l.contains i) ≤ l.length := by
  rw [List.countP_eq_length_filter]
  have hnd : ((List.range n).filter (fun i => l.contains i)).Nodup :=
    (List.nodup_range n).filter _
  rw [← List.toFinset_card_of_nodup hnd]
  calc ((List.range n).filter (fun i => l.contains i)).toFinset.card
      ≤ l.toFinset.card := by
        apply Finset.card_le_card
        intro x hx
        simp only [List.mem_toFinset, List.mem_filter] at hx ⊢
        exact List.mem_of_elem_eq_true hx.2
    _ ≤ l.length := l.toFinset_card_le

theorem sum_map_add_nat (l : List Nat) (f g : Nat → Nat) :
    (l.map (fun i => f i + g i)).sum = (l.map f).sum + (l.map g).sum := by
  induction l with
  | nil => simp
  | cons a t ih => simp [ih]; omega

theorem sum_map_indicator_eq_countP (l : List Nat) (p : Nat → Bool) :
    (l.map (fun i => if p i then 1 else 0)).sum = l.countP p := by
  induction l with
  | nil => simp
  | cons a t ih =>
    simp only [List.map_cons, List.sum_cons, List.countP_cons, ih]
    by_cases h : p a <;> simp [h] <;> omega

theorem partition_total_le (rects : List ElementRect) (ref : RefRect) (thr? : Option ℚ) :
    ((List.range 9).map (fun i => (partition rects ref thr? i).length)).sum ≤
      3 * rects.length := by
  induction rects with
  | nil => simp [partition]
  | cons r rs ih =>
    have hlen : ∀ i, (partition (r :: rs) ref thr? i).length =
        (if (memberships ref (thr?.getD (1/2)) r).contains i then 1 else 0) +
          (partition rs ref thr? i).length := by
      intro i
      simp only [partition, List.filter_cons]
      split <;> simp <;> omega
    have hmap : (List.range 9).map (fun i => (partition (r :: rs) ref thr? i).length) =
        (List.range 9).map (fun i =>
          (if (memberships ref (thr?.getD (1/2)) r).contains i then 1 else 0) +
            (partition rs ref thr? i).length) :=
      List.map_congr_left (fun i _ => hlen i)
    rw [hmap, sum_map_add_nat, sum_map_indicator_eq_countP]
    have hc : (List.range 9).countP
        (fun i => (memberships ref (thr?.getD (1/2)) r).contains i) ≤ 3 :=
      le_trans (countP_contains_le_length 9 _) (memberships_length_le ref _ r)
    have hc2 : (List.range 9).countP
        ((memberships ref (thr?.getD (1/2)) r).contains) ≤ 3 := hc
    simp only [List.length_cons]
    omega

/-- C1: for every call to `partition(rects, refRect, threshold)`, each input
rect goes to exactly one primary group, computed from its center by the
column rule (`0` if `center.x < ref.left`, `1` if `center.x ≤ ref.right`,
else `2`), the row rule against `ref.top`/`ref.bottom`, and
`group = row * 3 + col`; a rect appears in any other group only when its
primary group is a corner (`0`, `2`, `6` or `8`) and the corresponding
edge-threshold spill condition holds; and the total number of group
memberships over all nine groups is at most three times the number of input
rects. -/
theorem partition_nine_groups_spec (rects : List ElementRect) (ref : RefRect)
    (thr? : Option ℚ) :
    (∀ r ∈ rects,
      primaryGroup ref r =
        (if r.centerY < ref.top then 0 else if r.centerY ≤ ref.bottom then 1 else 2) * 3 +
        (if r.centerX < ref.left then 0 else if r.centerX ≤ ref.right then 1 else 2) ∧
      primaryGroup ref r < 9 ∧
      r ∈ partition rects ref thr? (primaryGroup ref r)) ∧
    (∀ i, ∀ r ∈ partition rects ref thr? i,
      r ∈ rects ∧
      (i = primaryGroup ref r ∨
        ((primaryGroup ref r = 0 ∨ primaryGroup ref r = 2 ∨
          primaryGroup ref r = 6 ∨ primaryGroup ref r = 8) ∧
         ((primaryGroup ref r = 2 ∧ i = 1 ∧
             r.left ≤ ref.right - ref.width * (thr?.getD (1/2))) ∨
          (primaryGroup ref r = 8 ∧ i = 7 ∧
             r.left ≤ ref.right - ref.width * (thr?.getD (1/2))) ∨
          (primaryGroup ref r = 0 ∧ i = 1 ∧
             r.right ≥ ref.left + ref.width * (thr?.getD (1/2))) ∨
          (primaryGroup ref r = 6 ∧ i = 7 ∧
             r.right ≥ ref.left + ref.width * (thr?.getD (1/2))) ∨
          (primaryGroup ref r = 6 ∧ i = 3 ∧
             r.top ≤ ref.bottom - ref.height * (thr?.getD (1/2))) ∨
          (primaryGroup ref r = 8 ∧ i = 5 ∧
             r.top ≤ ref.bottom - ref.height * (thr?.getD (1/2))) ∨
          (primaryGroup ref r = 0 ∧ i = 3 ∧
             r.bottom ≥ ref.top + ref.height * (thr?.getD (1/2))) ∨
          (primaryGroup ref r = 2 ∧ i = 5 ∧
             r.bottom ≥ ref.top + ref.height * (thr?.getD (1/2))))))) ∧
    ((List.range 9).map (fun i => (partition rects ref thr? i).length)).sum ≤
      3 * rects.length := by
  refine ⟨?_, ?_, partition_total_le rects ref thr?⟩
  · intro r hr
    refine ⟨rfl, primaryGroup_lt ref r, ?_⟩
    simp [partition, List.mem_filter, hr, memberships]
  · intro i r hrp
    rw [partition, List.mem_filter] at hrp
    obtain ⟨hr, hm⟩ := hrp
    refine ⟨hr, ?_⟩
    have hm' : i ∈ memberships ref (thr?.getD (1/2)) r := List.mem_of_elem_eq_true hm
    rw [memberships, List.mem_cons] at hm'
    rcases hm' with h | h
    · exact Or.inl h
    · right
      rw [mem_spillGroups_iff] at h
      exact ⟨by omega, h⟩

/-- A concrete instantiation of `partition_nine_groups_spec`: two rects, two
groups apiece at most, total memberships within the bound. -/
theorem partition_nine_groups_spec_witness :
    ((List.range 9).map (fun i =>
      (partition
        [{ element := 1, x := 100, y := 0, width := 50, height := 50, top := 0,
           bottom := 50, left := 100, right := 150, centerX := 125, centerY := 25 },
         { element := 2, x := 200, y := 0, width := 50, height := 50, top := 0,
           bottom := 50, left := 200, right := 250, centerX := 225, centerY := 25 }]
        { width := 50, height := 50, top := 0, bottom := 50, left := 0, right := 50 }
        (some (1/2)) i).length)).sum ≤ 3 * 2 :=
  (partition_nine_groups_spec _ _ _).2.2

theorem mem_partition_sub {rects : List ElementRect} {ref : RefRect} {thr? : Option ℚ}
    {i : Nat} {r : ElementRect} (h : r ∈ partition rects ref thr? i) : r ∈ rects := by
  rw [partition, List.mem_filter] at h
  exact h.1

theorem prioritize_mem {ps : List (Option GroupPriority)} {g : List ElementRect}
    (h : prioritize ps = some g) :
    g ≠ [] ∧ ∃ p, some p ∈ ps ∧ ∀ r ∈ g, r ∈ p.group := by
  rw [prioritize] at h
  rcases hf : ps.findSome? (fun p? =>
      match p? with
      | some p => if p.group.length ≠ 0 then some p else none
      | none => none) with _ | dp
  · rw [hf] at h
    exact absurd h (by simp)
  · rw [hf] at h
    obtain ⟨a, ha, hfa⟩ := List.exists_of_findSome?_eq_some hf
    have hadp : a = some dp ∧ dp.group ≠ [] := by
      rcases a with _ | p
      · exact absurd hfa (by simp)
      · have hfa' : (if p.group.length ≠ 0 then some p else none) = some dp := hfa
        by_cases hl : p.group.length ≠ 0
        · rw [if_pos hl] at hfa'
          have hpe := Option.some.inj hfa'
          subst hpe
          exact ⟨rfl, by simpa using hl⟩
        · simp [hl] at hfa'
    have hg : g = dp.group.insertionSort
        (fun a b => compareRects dp.distanceMeters a b ≤ 0) := by
      exact (Option.some.inj h).symm
    refine ⟨?_, dp, hadp.1 ▸ ha, ?_⟩
    · intro hnil
      apply hadp.2
      have hperm := List.perm_insertionSort
        (fun a b => compareRects dp.distanceMeters a b ≤ 0) dp.group
      rw [← hg, hnil] at hperm
      exact (List.Perm.nil_eq hperm).symm
    · intro r hr
      rw [hg] at hr
      exact (List.mem_insertionSort _).mp hr

theorem definePriorities_mem {t : ElementRect} {dir : Direction}
    {groups igroups : Nat → List ElementRect} {so : Bool} {p : GroupPriority}
    (hp : some p ∈ definePriorities t dir groups igroups so) :
    ∀ r ∈ p.group, (∃ i, r ∈ groups i) ∨ (∃ i, r ∈ igroups i) := by
  intro r hr
  cases dir <;>
    simp only [definePriorities, List.mem_cons, List.not_mem_nil, or_false] at hp <;>
    rcases hp with hp | hp | hp <;>
    (try split at hp) <;>
    first
    | exact Option.noConfusion hp
    | (injection hp with hp2
       subst hp2
       simp only [List.append_eq, List.mem_append] at hr
       aesop)

theorem destinationGroup_sub {measure : Elem → BoundingRect} {target : Elem}
    {dir : Direction} {cands : List Elem} {cfg : NavConfig} {g : List ElementRect}
    (h : destinationGroupFor measure target dir cands cfg = some g) :
    g ≠ [] ∧ ∀ r ∈ g, r ∈ cands.map (mkElementRect measure) := by
  by_cases hc : cands.isEmpty
  · rw [destinationGroupFor, if_pos hc] at h
    exact absurd h (by simp)
  · rw [destinationGroupFor, if_neg hc] at h
    obtain ⟨hne, p, hpmem, hsub⟩ := prioritize_mem h
    refine ⟨hne, fun r hr => ?_⟩
    have := definePriorities_mem hpmem r (hsub r hr)
    rcases this with ⟨i, hi⟩ | ⟨i, hi⟩
    · exact mem_partition_sub hi
    · exact mem_partition_sub (mem_partition_sub hi)

theorem navigate_mem {measure : Elem → BoundingRect} {target : Elem} {dir : Direction}
    {cands : List Elem} {cfg : NavConfig} {e : Elem}
    (h : navigate measure target dir cands cfg = some e) : e ∈ cands := by
  rcases hdg : destinationGroupFor measure target dir cands cfg with _ | dg
  · rw [navigate, hdg] at h
    exact absurd h (by simp)
  · rw [navigate, hdg] at h
    obtain ⟨-, hsub⟩ := destinationGroup_sub hdg
    have hrect : ∀ rect ∈ dg, rect.element ∈ cands := by
      intro rect hrmem
      obtain ⟨c, hcmem, hceq⟩ := List.mem_map.mp (hsub rect hrmem)
      have : rect.element = c := by rw [← hceq]; rfl
      rwa [this]
    simp only at h
    rcases hdest : (if cfg.rememberSource = true then
        match cfg.previousFocus with
        | some previousFocus =>
          if previousFocus.destination = target ∧ previousFocus.reverse = dir then
            (dg.find? (fun rect => rect.element = previousFocus.target)).map
              (fun rect => rect.element)
          else none
        | none => none
      else none) with _ | d
    · rw [hdest] at h
      obtain ⟨rect, hhd, hre⟩ := Option.map_eq_some'.mp h
      have hmem : rect ∈ dg := List.mem_of_mem_head? (by rw [hhd]; rfl)
      rw [← hre]
      exact hrect rect hmem
    · rw [hdest] at h
      have hd : e = d := (Option.some.inj h).symm
      subst hd
      split_ifs at hdest
      · rcases hpf : cfg.previousFocus with _ | pf
        · simp only [hpf] at hdest
          exact Option.noConfusion hdest
        · simp only [hpf] at hdest
          split_ifs at hdest
          obtain ⟨rect, hfind, hre⟩ := Option.map_eq_some'.mp hdest
          have hmem := List.mem_of_find?_eq_some hfind
          rw [← hre]
          exact hrect rect hmem

/-- The spec's first scenario layout: three horizontally aligned 50×50 boxes,
`A = 0` at `(0,0)`, `B = 1` at `(100,0)`, `C = 2` at `(200,0)`. -/
def measureABC : Elem → BoundingRect
  | 0 => { x := 0, y := 0, width := 50, height := 50, top := 0, bottom := 50,
           left := 0, right := 50 }
  | 1 => { x := 100, y := 0, width := 50, height := 50, top := 0, bottom := 50,
           left := 100, right := 150 }
  | _ => { x := 200, y := 0, width := 50, height := 50, top := 0, bottom := 50,
           left := 200, right := 250 }

/-- C2: on the three-box layout, navigating right from `A` among `{B, C}`
elects `B`, and navigating right from `B` among `{A, C}` elects `C`, with
the default configuration. -/
theorem navigate_three_boxes_right :
    navigate measureABC 0 .right [1, 2] navigatorDefaultConfig = some 1 ∧
    navigate measureABC 1 .right [0, 2] navigatorDefaultConfig = some 2 := by
  constructor <;>
    norm_num [navigate, destinationGroupFor, mkElementRect, measureABC, partition,
      memberships, primaryGroup, rowIndex, colIndex, spillGroups, toRefRect, centerRef,
      definePriorities, prioritize, compareRects, nearPlumbLineIsBetter, topIsBetter,
      navigatorDefaultConfig, List.filter, List.findSome?, List.insertionSort,
      List.orderedInsert]

theorem exclude_singleton (l : List Elem) (x : Elem) : exclude l [x] = l.erase x := rfl

/-- C4: in the election phase of `focusNext`, when the source section's
effective restrict policy is `self-only`, any elected element comes from the
source section's navigable elements with the source element removed; in
particular it is one of the source section's navigables, so an element
belonging only to another section is never elected. -/
theorem electNext_selfOnly_stays_in_section
    (measure : Elem → BoundingRect) (sections : List (Nat × Section))
    (direction : Direction) (focusedElement : Elem) (currentSectionId : Nat)
    (s : Section)
    (hs : (sections.find? (fun p => p.1 = currentSectionId)).map (fun p => p.2) = some s)
    (hr : s.config.restrict = .selfOnly) :
    ∀ e, electNext measure sections direction focusedElement currentSectionId = some e →
      e ∈ s.navigables.erase focusedElement ∧ e ∈ s.navigables := by
  intro e he
  simp only [electNext, hs] at he
  rw [hr] at he
  simp only [reduceCtorEq, or_false, if_pos] at he
  rcases hnav : navigate measure focusedElement direction
      (exclude s.navigables [focusedElement]) s.config with _ | ne
  · rw [hnav] at he
    simp at he
  · rw [hnav] at he
    have heq : ne = e := Option.some.inj he
    subst heq
    have hm := navigate_mem hnav
    rw [exclude_singleton] at hm
    exact ⟨hm, List.mem_of_mem_erase hm⟩

/-- A concrete instantiation of `electNext_selfOnly_stays_in_section`: one
`self-only` section holding boxes `A = 0` and `B = 1`; from `A` going right
the election returns `B`, which indeed lies in the section's navigables with
the source removed. -/
theorem electNext_selfOnly_stays_in_section_witness :
    (1 : Elem) ∈ ([0, 1] : List Elem).erase 0 ∧ (1 : Elem) ∈ ([0, 1] : List Elem) :=
  electNext_selfOnly_stays_in_section measureABC
    [(7, { disabled := false
           matchElem := fun _ => true
           navigables := [0, 1]
           config := { straightOnly := false, straightOverlapThreshold := some (1/2),
                       rememberSource := true, restrict := .selfOnly, previousFocus := none }
           leaveFor := fun _ => none
           primaryElement := none
           navigableFilter := none
           hasOnBlur := false
           hasOnFocus := false
           lastFocusedElement := none })]
    .right 0 7 _ rfl rfl 1
    (by norm_num [electNext, exclude, navigate, destinationGroupFor, mkElementRect,
      measureABC, partition, memberships, primaryGroup, rowIndex, colIndex, spillGroups,
      toRefRect, centerRef, definePriorities, prioritize, compareRects,
      nearPlumbLineIsBetter, topIsBetter, List.filter, List.findSome?,
      List.insertionSort, List.orderedInsert, List.erase, List.find?])

/-- C3: whenever `navigate` has a destination group, it returns
`previousFocus.target` exactly when `rememberSource` holds, `previousFocus`
records this target as its destination and the requested direction as its
reverse, and the sorted destination group contains `previousFocus.target`;
in every other case it returns the first element of the sorted destination
group. -/
theorem navigate_previousFocus_preference
    (measure : Elem → BoundingRect) (target : Elem) (direction : Direction)
    (candidates : List Elem) (config : NavConfig) (dg : List ElementRect)
    (hdg : destinationGroupFor measure target direction candidates config = some dg) :
    (∀ pf, config.rememberSource = true → config.previousFocus = some pf →
      pf.destination = target → pf.reverse = direction →
      (∃ r ∈ dg, r.element = pf.target) →
      navigate measure target direction candidates config = some pf.target) ∧
    ((¬ (config.rememberSource = true ∧ ∃ pf, config.previousFocus = some pf ∧
        pf.destination = target ∧ pf.reverse = direction ∧
        ∃ r ∈ dg, r.element = pf.target)) →
      ∃ first rest, dg = first :: rest ∧
        navigate measure target direction candidates config = some first.element) := by
  obtain ⟨hne, -⟩ := destinationGroup_sub hdg
  constructor
  · intro pf hrs hpf hdest hrev hex
    rw [navigate, hdg]
    obtain ⟨r0, hr0mem, hr0el⟩ := hex
    have hfs : (dg.find? (fun rect => rect.element = pf.target)).isSome := by
      rw [List.find?_isSome]
      exact ⟨r0, hr0mem, by simp [hr0el]⟩
    obtain ⟨r1, hr1⟩ := Option.isSome_iff_exists.mp hfs
    have hr1el : r1.element = pf.target := by simpa using List.find?_some hr1
    simp only [hrs, hpf, hdest, hrev, and_self, if_true, hr1, Option.map_some']
    rw [hr1el]
  · intro hnot
    rcases hdgl : dg with _ | ⟨first, rest⟩
    · exact absurd hdgl hne
    · refine ⟨first, rest, rfl, ?_⟩
      subst hdgl
      rw [navigate, hdg]
      by_cases hrs : config.rememberSource = true
      · rcases hpf : config.previousFocus with _ | pf
        · simp [hrs, hpf]
        · by_cases hcond : pf.destination = target ∧ pf.reverse = direction
          · rcases hfind : (first :: rest).find?
                (fun rect => rect.element = pf.target) with _ | r
            · simp [hrs, hpf, hcond.1, hcond.2, hfind]
            · exfalso
              apply hnot
              have hrmem := List.mem_of_find?_eq_some hfind
              have hrel : r.element = pf.target := by simpa using List.find?_some hfind
              exact ⟨hrs, pf, hpf, hcond.1, hcond.2, r, hrmem, hrel⟩
          · simp [hrs, hpf, hcond]
      · simp [hrs]

/-- A concrete instantiation of `navigate_previousFocus_preference`: on the
three-box layout, navigating right from `B` with a previous-focus record
`(target C, destination B, reverse right)` returns `C`. -/
theorem navigate_previousFocus_preference_witness :
    navigate measureABC 1 .right [0, 2]
      { straightOnly := false, straightOverlapThreshold := some (1/2),
        rememberSource := true, restrict := .selfFirst,
        previousFocus := some ⟨2, 1, .right⟩ } = some 2 :=
  (navigate_previousFocus_preference measureABC 1 .right [0, 2] _
      [⟨2, 200, 0, 50, 50, 0, 50, 200, 250, 225, 25⟩]
      (by norm_num [destinationGroupFor, mkElementRect, measureABC, partition,
        memberships, primaryGroup, rowIndex, colIndex, spillGroups, toRefRect,
        centerRef, definePriorities, prioritize, compareRects, nearPlumbLineIsBetter,
        topIsBetter, List.filter, List.findSome?, List.insertionSort,
        List.orderedInsert])).1
    ⟨2, 1, .right⟩ rfl rfl rfl rfl ⟨⟨2, 200, 0, 50, 50, 0, 50, 200, 250, 225, 25⟩, by simp, rfl⟩

theorem updateSection_guard (st : NavState) (id : Nat) (f : Section → Section) :
    (updateSection st id f).duringFocusChange = st.duringFocusChange := rfl

theorem updateSection_lastSectionId (st : NavState) (id : Nat) (f : Section → Section) :
    (updateSection st id f).lastSectionId = st.lastSectionId := rfl

theorem focusChanged_guard (st : NavState) (el : Elem) (sid? : Option Nat) :
    ((focusChanged st el sid?).1).duringFocusChange = st.duringFocusChange := by
  rw [focusChanged]
  rcases hr : resolveSectionId st el sid? with _ | sid <;> simp [hr, updateSection]

theorem silentFocus_guard (st : NavState) (fe : Option Elem) (el : Elem)
    (sid? : Option Nat) :
    ((silentFocus st fe el sid?).1).duringFocusChange = st.duringFocusChange := by
  rcases fe with _ | f <;> simp [silentFocus, focusChanged_guard]

theorem onBlurEvFor_hooks (st : NavState) (sid? : Option Nat) :
    (onBlurEvFor st sid?).filter isDomEvent = [] := by
  rw [onBlurEvFor.eq_def]
  split
  · rfl
  · split
    · rfl
    · split_ifs <;> simp [isDomEvent]

theorem onFocusEvFor_hooks (st : NavState) (sid : Nat) :
    (onFocusEvFor st sid).filter isDomEvent = [] := by
  rw [onFocusEvFor.eq_def]
  split
  · rfl
  · split_ifs <;> simp [isDomEvent]

theorem beforeFocusChanged_hooks (st : NavState) (fe : Elem) (sid? : Option Nat) :
    (beforeFocusChanged st fe sid?).filter isDomEvent = [] := by
  rw [beforeFocusChanged.eq_def]
  split
  · rfl
  · split_ifs <;> simp [isDomEvent]

theorem focusChanged_hooks (st : NavState) (el : Elem) (sid? : Option Nat) :
    ((focusChanged st el sid?).2).filter isDomEvent = [] := by
  rw [focusChanged]
  rcases hr : resolveSectionId st el sid? with _ | sid
  · rfl
  · simp only
    split_ifs
    · rw [List.filter_append, onBlurEvFor_hooks, onFocusEvFor_hooks]
      rfl
    · rfl

theorem silentFocus_hooks (st : NavState) (fe : Option Elem) (el : Elem)
    (sid? : Option Nat) :
    ((silentFocus st fe el sid?).2).filter isDomEvent = [] := by
  rcases fe with _ | f
  · rw [silentFocus]
    exact focusChanged_hooks _ el sid?
  · rw [silentFocus]
    simp only
    rw [List.filter_append, beforeFocusChanged_hooks, focusChanged_hooks]
    rfl

/-- C9: a re-entrant call to `focusElement` (the `duringFocusChange` guard
already set) takes the silent blur-and-focus path: it returns `true` and its
trace contains no DOM event — no `will-unfocus`, `unfocused`, `will-focus`
or `focused` (only configuration-hook invocations may occur). -/
theorem focusElement_reentrant_silent (st : NavState) (cancelled : Ev → Bool)
    (element : Elem) (sectionId : Option Nat)
    (h : st.duringFocusChange = true) :
    (focusElement st cancelled (some element) sectionId).1 = true ∧
    ((focusElement st cancelled (some element) sectionId).2.2).filter isDomEvent = [] := by
  refine ⟨?_, ?_⟩ <;> rw [focusElement, h] <;> simp [silentFocus_hooks]

/-- A concrete instantiation of `focusElement_reentrant_silent`: with the
guard set, focusing element `5` succeeds and dispatches no DOM event. -/
theorem focusElement_reentrant_silent_witness :
    (focusElement
      { sections := [], lastSectionId := none, paused := false,
        duringFocusChange := true, focused := none }
      (fun _ => false) (some 5) none).1 = true ∧
    ((focusElement
      { sections := [], lastSectionId := none, paused := false,
        duringFocusChange := true, focused := none }
      (fun _ => false) (some 5) none).2.2).filter isDomEvent = [] :=
  focusElement_reentrant_silent _ _ 5 none rfl

theorem focusPhase_guard (st : NavState) (cancelled : Ev → Bool) (el : Elem)
    (sid? : Option Nat) (acc : List Ev) :
    ((focusPhase st cancelled el sid? acc).2.1).duringFocusChange = false := by
  rw [focusPhase]
  split_ifs
  · rfl
  · simp [focusChanged_guard]

/-- C10: whenever `focusElement` is entered with the `duringFocusChange`
guard clear, it is clear again on every return path — the missing-element
return, the paused silent path, cancellation of `will-unfocus`, cancellation
of `will-focus`, and the successful completion path. -/
theorem focusElement_guard_clear (st : NavState) (cancelled : Ev → Bool)
    (element? : Option Elem) (sectionId : Option Nat)
    (h : st.duringFocusChange = false) :
    ((focusElement st cancelled element? sectionId).2.1).duringFocusChange = false := by
  rcases element? with _ | element
  · simpa [focusElement] using h
  · rw [focusElement]
    simp only [h, Bool.false_eq_true, if_false]
    split_ifs with hp
    · rfl
    · rcases hf : st.focused with _ | fe
      · simp only
        exact focusPhase_guard _ cancelled element sectionId []
      · simp only
        split_ifs with hc
        · rfl
        · exact focusPhase_guard _ cancelled element sectionId _

/-- A concrete instantiation of `focusElement_guard_clear`: a completed
top-level focus of element `5` leaves the guard clear. -/
theorem focusElement_guard_clear_witness :
    ((focusElement
      { sections := [], lastSectionId := none, paused := false,
        duringFocusChange := false, focused := none }
      (fun _ => false) (some 5) none).2.1).duringFocusChange = false :=
  focusElement_guard_clear _ _ (some 5) none rfl

theorem getSection_updateSection (st : NavState) (id : Nat) (f : Section → Section)
    (id' : Nat) :
    getSection (updateSection st id f) id' =
      if id' = id then (getSection st id).map f else getSection st id' := by
  have hqu : ((fun p => decide (p.1 = id')) ∘
      (fun p : Nat × Section => if p.1 = id then (p.1, f p.2) else p)) =
      (fun p : Nat × Section => decide (p.1 = id')) := by
    funext p
    by_cases h : p.1 = id <;> simp [h]
  simp only [getSection, updateSection, List.find?_map, hqu, Option.map_map]
  rcases hf : st.sections.find? (fun p => decide (p.1 = id')) with _ | p0
  · by_cases h2 : id' = id
    · subst h2
      simp [hf]
    · simp [hf, h2]
  · have hp0 : p0.1 = id' := by simpa using List.find?_some hf
    by_cases h2 : id' = id
    · subst h2
      simp [hf, Function.comp, hp0]
    · simp [hf, h2, Function.comp, hp0]

/-- C5 (amended): in a cross-section focus move that completes without
cancellation, the occurrences are, in order: `will-unfocus`, the source
section's `onBlur` hook, `unfocused`, `will-focus`, `focused`, the source
section's `onBlur` hook a second time (from `focusChanged`), and finally the
destination section's `onFocus` hook.  In particular the `focused` event
precedes the destination's `onFocus` hook. -/
theorem focusElement_event_order_amended
    (st : NavState) (cancelled : Ev → Bool) (src dst : Elem) (sidSrc sidDst : Nat)
    (sSrc sDst : Section)
    (hguard : st.duringFocusChange = false)
    (hpaused : st.paused = false)
    (hfoc : st.focused = some src)
    (hcu : cancelled (.willUnfocus src) = false)
    (hcf : cancelled (.willFocus dst) = false)
    (hfind : st.sections.find? (fun p => !p.2.disabled && p.2.matchElem src) =
      some (sidSrc, sSrc))
    (hneq : sidSrc ≠ sidDst)
    (hblur : sSrc.hasOnBlur = true)
    (hgetS : getSection st sidSrc = some sSrc)
    (hgetD : getSection st sidDst = some sDst)
    (hfocus : sDst.hasOnFocus = true)
    (hlast : st.lastSectionId = some sidSrc) :
    (focusElement st cancelled (some dst) (some sidDst)).1 = true ∧
    (focusElement st cancelled (some dst) (some sidDst)).2.2 =
      [Ev.willUnfocus src, Ev.onBlurHook sidSrc, Ev.unfocused src, Ev.willFocus dst,
       Ev.focused dst, Ev.onBlurHook sidSrc, Ev.onFocusHook sidDst] := by
  obtain ⟨secs, lsid, pstate, dfc, foc⟩ := st
  simp only at hguard hpaused hfoc hlast hfind
  subst hguard hpaused hfoc hlast
  have hbfc : beforeFocusChanged
      { sections := secs, lastSectionId := some sidSrc, paused := false,
        duringFocusChange := true, focused := none } src (some sidDst) =
      [Ev.onBlurHook sidSrc] := by
    rw [beforeFocusChanged]
    simp only [hfind, ne_eq, Option.some.injEq]
    rw [if_pos hneq, if_pos hblur]
  have hfc2 : (focusChanged
      { sections := secs, lastSectionId := some sidSrc, paused := false,
        duringFocusChange := false, focused := some dst } dst (some sidDst)).2 =
      [Ev.onBlurHook sidSrc, Ev.onFocusHook sidDst] := by
    rw [focusChanged]
    simp only [resolveSectionId]
    have hobf : onBlurEvFor
        (updateSection
          { sections := secs, lastSectionId := some sidSrc, paused := false,
            duringFocusChange := false, focused := some dst } sidDst
          (fun s => { s with lastFocusedElement := some dst })) (some sidSrc) =
        [Ev.onBlurHook sidSrc] := by
      rw [onBlurEvFor, getSection_updateSection, if_neg hneq]
      have hg : getSection
          { sections := secs, lastSectionId := some sidSrc, paused := false,
            duringFocusChange := false, focused := some dst } sidSrc = some sSrc := hgetS
      rw [hg]
      simp [hblur]
    have hof : onFocusEvFor
        (updateSection
          { sections := secs, lastSectionId := some sidSrc, paused := false,
            duringFocusChange := false, focused := some dst } sidDst
          (fun s => { s with lastFocusedElement := some dst })) sidDst =
        [Ev.onFocusHook sidDst] := by
      rw [onFocusEvFor.eq_def, getSection_updateSection, if_pos rfl]
      have hg : getSection
          { sections := secs, lastSectionId := some sidSrc, paused := false,
            duringFocusChange := false, focused := some dst } sidDst = some sDst := hgetD
      rw [hg]
      simp [hfocus]
    simp only [updateSection_lastSectionId, ne_eq, Option.some.injEq]
    rw [if_pos hneq]
    rw [hobf, hof]
    rfl
  rw [focusElement]
  simp only [Bool.false_eq_true, if_false, hcu, hbfc]
  rw [focusPhase]
  simp only [hcf, Bool.false_eq_true, if_false]
  refine ⟨trivial, ?_⟩
  simp only [hfc2]
  rfl

/-- A section for the two-section scenario of the event-order analysis: it
matches exactly the single element `el`, is enabled, and has both hooks
configured. -/
def hookedSection (el : Elem) : Section :=
  { disabled := false, matchElem := fun e => e == el, navigables := [el],
    config := navigatorDefaultConfig, leaveFor := fun _ => none,
    primaryElement := none, navigableFilter := none,
    hasOnBlur := true, hasOnFocus := true, lastFocusedElement := none }

/-- The state for the event-order scenario: element `0` of section `1` is
focused, section `1` is the last active section, and element `1` belongs to
section `2`. -/
def crossSectionState : NavState :=
  { sections := [(1, hookedSection 0), (2, hookedSection 1)],
    lastSectionId := some 1, paused := false, duringFocusChange := false,
    focused := some 0 }

/-- A concrete instantiation of `focusElement_event_order_amended`: two
singleton sections, focus moving from element `0` (section `1`) to element
`1` (section `2`). -/
theorem focusElement_event_order_amended_witness :
    (focusElement crossSectionState (fun _ => false) (some 1) (some 2)).2.2 =
      [Ev.willUnfocus 0, Ev.onBlurHook 1, Ev.unfocused 0, Ev.willFocus 1,
       Ev.focused 1, Ev.onBlurHook 1, Ev.onFocusHook 2] :=
  (focusElement_event_order_amended crossSectionState (fun _ => false) 0 1 1 2
    (hookedSection 0) (hookedSection 1) rfl rfl rfl rfl rfl rfl
    (by decide) rfl rfl rfl rfl rfl).2

/-- C5 counterexample: on the concrete cross-section move of
`crossSectionState`, the claimed order (destination `onFocus` hook before the
`focused` event) is not the produced trace: the actual trace fires `focused`
before the destination's `onFocus` hook (and repeats the source `onBlur`
hook after it). -/
theorem focusElement_event_order_counterexample :
    (focusElement crossSectionState (fun _ => false) (some 1) (some 2)).2.2 =
      [Ev.willUnfocus 0, Ev.onBlurHook 1, Ev.unfocused 0, Ev.willFocus 1,
       Ev.focused 1, Ev.onBlurHook 1, Ev.onFocusHook 2] ∧
    (focusElement crossSectionState (fun _ => false) (some 1) (some 2)).2.2 ≠
      [Ev.willUnfocus 0, Ev.onBlurHook 1, Ev.unfocused 0, Ev.willFocus 1,
       Ev.onFocusHook 2, Ev.focused 1] := by
  constructor <;> decide

/-- C6: `gotoLeaveFor` is three-valued exactly as specified: a configured
entry resolving (after invoking a callable) to the empty string yields the
`none` sentinel; a non-empty selector string yields `some true` iff the
extended-selector focus succeeded (and `some false` otherwise); any other
resolved value — element handle, collection, or no entry — yields
`some false`. -/
theorem gotoLeaveFor_three_valued (w : World) (st : NavState) (sectionId : Nat)
    (s : Section) (direction : Direction) :
    (getLeaveForAt s direction = some (.str "") →
      (gotoLeaveFor w st sectionId s direction).1 = none) ∧
    (∀ selector, getLeaveForAt s direction = some (.str selector) → selector ≠ "" →
      (gotoLeaveFor w st sectionId s direction).1 =
        some (w.extFocus selector direction st).1) ∧
    ((∀ selector, getLeaveForAt s direction ≠ some (.str selector)) →
      (gotoLeaveFor w st sectionId s direction).1 = some false) := by
  refine ⟨?_, ?_, ?_⟩
  · intro h
    rw [gotoLeaveFor, h]
    rfl
  · intro selector h hne
    rw [gotoLeaveFor, h]
    simp only [hne, if_false]
    by_cases hres : (w.extFocus selector direction st).1 = true
    · simp [hres]
    · simp only [Bool.not_eq_true] at hres
      simp [hres]
  · intro h
    rcases hlf : getLeaveForAt s direction with _ | x
    · rw [gotoLeaveFor, hlf]
    · rcases x with s' | e | es
      · exact absurd hlf (h s')
      · rw [gotoLeaveFor, hlf]
      · rw [gotoLeaveFor, hlf]

/-- A world whose extended-selector focus always succeeds without touching
the state. -/
def alwaysFocusWorld : World :=
  { attr := fun _ _ => none, measure := measureABC,
    extFocus := fun _ _ st => (true, st, []) }

/-- A section whose `leaveFor` maps every direction to the selector string
`"@x"`. -/
def leaveForSection : Section :=
  { hookedSection 0 with leaveFor := fun _ => some (.sel (.str "@x")) }

/-- The empty navigator state. -/
def emptyState : NavState :=
  { sections := [], lastSectionId := none, paused := false,
    duringFocusChange := false, focused := none }

/-- A concrete instantiation of `gotoLeaveFor_three_valued`: a `leaveFor`
entry `"@x"` with a succeeding extended-selector focus returns `true`. -/
theorem gotoLeaveFor_three_valued_witness :
    (gotoLeaveFor alwaysFocusWorld emptyState 1 leaveForSection .right).1 = some true := by
  have h := (gotoLeaveFor_three_valued alwaysFocusWorld emptyState 1
    leaveForSection .right).2.1 "@x" rfl (by decide)
  exact h.trans rfl

/-- C7: a `data-sn-<direction>` attribute equal to the empty string makes
`focusNext` return `false` with the state unchanged (no focus change) and a
trace consisting of exactly the non-cancellable `navigate-failed` event on
the source — in particular `will-focus` never fires. -/
theorem focusNext_empty_override (w : World) (st : NavState) (cancelled : Ev → Bool)
    (direction : Direction) (src : Elem) (sectionId : Nat)
    (h : w.attr src direction = some "") :
    focusNext w st cancelled direction src sectionId =
      (false, st, [Ev.navigateFailed src]) := by
  rw [focusNext, h]
  simp [fireNavigateFailed]

/-- A world in which every element carries an empty `data-sn-<direction>`
attribute for every direction. -/
def emptyOverrideWorld : World :=
  { attr := fun _ _ => some "", measure := measureABC,
    extFocus := fun _ _ st => (false, st, []) }

/-- A concrete instantiation of `focusNext_empty_override`. -/
theorem focusNext_empty_override_witness :
    focusNext emptyOverrideWorld emptyState (fun _ => false) .right 0 1 =
      (false, emptyState, [Ev.navigateFailed 0]) :=
  focusNext_empty_override emptyOverrideWorld emptyState (fun _ => false) .right 0 1 rfl

/-- Element layout properties with `offsetWidth = 0` but `offsetHeight = 50`:
a zero-area element that is not zero-sized in both dimensions. -/
def flatProps : Elem → ElemProps :=
  fun _ => { offsetWidth := 0, offsetHeight := 50, hasDisabledAttr := false }

/-- C8 counterexample: an element of zero area (`offsetWidth = 0`,
`offsetHeight = 50`, so `width · height = 0`) is navigable in an enabled
section with no filters — the source only rejects elements whose
`offsetWidth` and `offsetHeight` are both zero. -/
theorem isNavigable_zero_area_counterexample :
    isNavigable (hookedSection 0) none flatProps (some 0) false = true ∧
    (flatProps 0).offsetWidth * (flatProps 0).offsetHeight = 0 := by
  constructor
  · norm_num [isNavigable, flatProps, hookedSection]
  · norm_num [flatProps]

/-- C8 (amended): `isNavigable` returns `false` whenever the element is
zero-sized in both dimensions (`offsetWidth ≤ 0` and `offsetHeight ≤ 0`), and
likewise whenever it carries a `disabled` attribute, regardless of the other
checks; an element with zero area in only one dimension may still be
navigable. -/
theorem isNavigable_both_dims_zero_or_disabled (s : Section)
    (globalFilter : Option (Elem → Bool)) (props : Elem → ElemProps) (el : Elem)
    (verify : Bool)
    (h : ((props el).offsetWidth ≤ 0 ∧ (props el).offsetHeight ≤ 0) ∨
      (props el).hasDisabledAttr = true) :
    isNavigable s globalFilter props (some el) verify = false := by
  simp only [isNavigable]
  split_ifs <;> rfl

/-- A concrete instantiation of `isNavigable_both_dims_zero_or_disabled`: a
0×0 element is not navigable. -/
theorem isNavigable_both_dims_zero_or_disabled_witness :
    isNavigable (hookedSection 0) none
      (fun _ => { offsetWidth := 0, offsetHeight := 0, hasDisabledAttr := false })
      (some 0) false = false :=
  isNavigable_both_dims_zero_or_disabled (hookedSection 0) none
    (fun _ => { offsetWidth := 0, offsetHeight := 0, hasDisabledAttr := false }) 0 false
    (Or.inl ⟨le_refl 0, le_refl 0⟩)

end SpatialNav
